import Mathlib

/-!
Verification of the ZX Spectrum USB keyboard firmware
(src/firmware/Core/Src/my.c, alemorf/zx_usb_keyboard).

The firmware translates USB HID key reports into a ZX Spectrum keyboard
matrix, precomputes a 256-entry response table indexed by the (active-low)
row-select byte, and double-buffers that table for an interrupt handler.

This file is a shallow embedding of the matrix / table pipeline:
matrices are functions from the row address to the row byte, the two
`zx_prepared` buffers are 256-element lists, and each poll cycle
(`MyIdle`) is a state transformer.  Machine integers are `Nat`; the
places where C truncation or wraparound matters carry their `% 2 ^ 32`
or `% 2 ^ 8` explicitly: the joystick index subtraction on a 32-bit
unsigned, the bitwise complement stored into the uint8_t table cell,
and the uint8_t usb_key parameter receiving STD_KEYS_OFFSET + key in
the key loop.
-/

/-! ## Constants from the source and the USB host library headers -/

/-- Number of HID modifier-shift bytes preceding the key array
(USB_SHIFTS_COUNT in my.c). -/
def USB_SHIFTS_COUNT : Nat := 8

/-- HID usage code of the letter A key (KEY_A in usbh_hid_keybd.h; the
value 0x04 is fixed by the comments of the usb_to_zx table). -/
def KEY_A : Nat := 0x04

/-- HID usage code of the right-arrow key (KEY_RIGHTARROW in
usbh_hid_keybd.h, HID usage 0x4F). -/
def KEY_RIGHTARROW : Nat := 0x4F

/-- Offset turning a standard usage code into an index of usb_to_zx
(STD_KEYS_OFFSET in my.c). -/
def STD_KEYS_OFFSET : Nat := USB_SHIFTS_COUNT - KEY_A

/-- Reserved value meaning that a usage code has no ZX mapping
(NONE in my.c). -/
def NONE : Nat := 0xFF

/-! ## ZX key encoding (macros ZX, ZXM_CAP, ZXM_SYM, ...) -/

/-- ZX(A, D): pack a 3-bit row address and a 3-bit data-bit position. -/
def ZX (a d : Nat) : Nat := ((a &&& 7) <<< 3) ||| (d &&& 7)

/-- Flag: the key also asserts Caps shift (ZXM_CAP). -/
def ZXM_CAP : Nat := 1 <<< 7

/-- Flag: the key also asserts Symbol shift (ZXM_SYM). -/
def ZXM_SYM : Nat := 1 <<< 6

/-- Row address of an encoded ZX key (ZX_GET_ADDRESS). -/
def ZX_GET_ADDRESS (key : Nat) : Nat := (key >>> 3) &&& 7

/-- Data-bit position of an encoded ZX key (ZX_GET_DATA). -/
def ZX_GET_DATA (key : Nat) : Nat := key &&& 7

def ZX_1 : Nat := ZX 3 0
def ZX_2 : Nat := ZX 3 1
def ZX_3 : Nat := ZX 3 2
def ZX_4 : Nat := ZX 3 3
def ZX_5 : Nat := ZX 3 4
def ZX_6 : Nat := ZX 4 4
def ZX_7 : Nat := ZX 4 3
def ZX_8 : Nat := ZX 4 2
def ZX_9 : Nat := ZX 4 1
def ZX_0 : Nat := ZX 4 0

def ZX_Q : Nat := ZX 2 0
def ZX_W : Nat := ZX 2 1
def ZX_E : Nat := ZX 2 2
def ZX_R : Nat := ZX 2 3
def ZX_T : Nat := ZX 2 4
def ZX_Y : Nat := ZX 5 4
def ZX_U : Nat := ZX 5 3
def ZX_I : Nat := ZX 5 2
def ZX_O : Nat := ZX 5 1
def ZX_P : Nat := ZX 5 0

def ZX_A : Nat := ZX 1 0
def ZX_S : Nat := ZX 1 1
def ZX_D : Nat := ZX 1 2
def ZX_F : Nat := ZX 1 3
def ZX_G : Nat := ZX 1 4
def ZX_H : Nat := ZX 6 4
def ZX_J : Nat := ZX 6 3
def ZX_K : Nat := ZX 6 2
def ZX_L : Nat := ZX 6 1
def ZX_ENTER : Nat := ZX 6 0

def ZX_CAPS : Nat := ZX 0 0
def ZX_Z : Nat := ZX 0 1
def ZX_X : Nat := ZX 0 2
def ZX_C : Nat := ZX 0 3
def ZX_V : Nat := ZX 0 4
def ZX_B : Nat := ZX 7 4
def ZX_N : Nat := ZX 7 3
def ZX_M : Nat := ZX 7 2
def ZX_SYM : Nat := ZX 7 1
def ZX_SPACE : Nat := ZX 7 0

def ZX_EDIT : Nat := ZX_1 ||| ZXM_CAP
def ZX_CAPSL : Nat := ZX_2 ||| ZXM_CAP
def ZX_TRUVI : Nat := ZX_3 ||| ZXM_CAP
def ZX_INVVI : Nat := ZX_4 ||| ZXM_CAP
def ZX_LEFT : Nat := ZX_5 ||| ZXM_CAP
def ZX_DOWN : Nat := ZX_6 ||| ZXM_CAP
def ZX_UP : Nat := ZX_7 ||| ZXM_CAP
def ZX_RIGHT : Nat := ZX_8 ||| ZXM_CAP
def ZX_GRAPH : Nat := ZX_9 ||| ZXM_CAP
def ZX_DEL : Nat := ZX_0 ||| ZXM_CAP
def ZX_BREAK : Nat := ZX_SPACE ||| ZXM_CAP
def ZX_EXTMO : Nat := ZX_SYM ||| ZXM_CAP

def ZX_GRAVE : Nat := ZX_7 ||| ZXM_SYM
def ZX_OPEN : Nat := ZX_8 ||| ZXM_SYM
def ZX_CLOSE : Nat := ZX_9 ||| ZXM_SYM

def ZX_LT : Nat := ZX_R ||| ZXM_SYM
def ZX_GT : Nat := ZX_T ||| ZXM_SYM
def ZX_SEMIC : Nat := ZX_O ||| ZXM_SYM
def ZX_QUOTE : Nat := ZX_P ||| ZXM_SYM

def ZX_MINUS : Nat := ZX_J ||| ZXM_SYM
def ZX_PLUS : Nat := ZX_K ||| ZXM_SYM
def ZX_EQUAL : Nat := ZX_L ||| ZXM_SYM

def ZX_COLON : Nat := ZX_Z ||| ZXM_SYM
def ZX_SLASH : Nat := ZX_V ||| ZXM_SYM
def ZX_MUL : Nat := ZX_B ||| ZXM_SYM
def ZX_COMMA : Nat := ZX_N ||| ZXM_SYM
def ZX_DOT : Nat := ZX_M ||| ZXM_SYM

def ZX_RESET : Nat := ZX 0 5
def ZX_MAGIC : Nat := ZX 0 6
def ZX_CURJO : Nat := ZX 1 5
def ZX_SINJO : Nat := ZX 1 6

/-! ## The static mapping table usb_to_zx -/

/-- Mapping from usb_to_zx indices (8 modifier slots followed by the
standard usage codes shifted by STD_KEYS_OFFSET) to encoded ZX keys,
exactly in source order. -/
def usb_to_zx : List Nat := [
  ZX_SYM,   ZX_CAPS,  ZX_EXTMO, ZX_0,
  ZX_CAPS,  ZX_SYM,   ZX_EXTMO, ZX_0,
  ZX_A,     ZX_B,     ZX_C,     ZX_D,
  ZX_E,     ZX_F,     ZX_G,     ZX_H,
  ZX_I,     ZX_J,     ZX_K,     ZX_L,
  ZX_M,     ZX_N,     ZX_O,     ZX_P,
  ZX_Q,     ZX_R,     ZX_S,     ZX_T,
  ZX_U,     ZX_V,     ZX_W,     ZX_X,
  ZX_Y,     ZX_Z,     ZX_1,     ZX_2,
  ZX_3,     ZX_4,     ZX_5,     ZX_6,
  ZX_7,     ZX_8,     ZX_9,     ZX_0,
  ZX_ENTER, ZX_BREAK, ZX_DEL,   ZX_EDIT,
  ZX_SPACE, ZX_MINUS, ZX_EQUAL, ZX_OPEN,
  ZX_CLOSE, ZX_COLON, NONE,     ZX_SEMIC,
  ZX_QUOTE, ZX_GRAVE, ZX_COMMA, ZX_DOT,
  ZX_SLASH, ZX_CAPSL, ZX_TRUVI, ZX_INVVI,
  ZX_GRAPH, NONE,     ZX_CURJO, ZX_SINJO,
  NONE,     NONE,     NONE,     ZX_MAGIC,
  NONE,     ZX_RESET, ZX_PLUS,  NONE,
  ZX_PLUS,  NONE,     NONE,     NONE,
  ZX_DEL,   NONE,     NONE,     ZX_RIGHT,
  ZX_LEFT,  ZX_DOWN,  ZX_UP,    NONE,
  ZX_SLASH, ZX_MUL,   ZX_MINUS, ZX_PLUS,
  ZX_ENTER, ZX_1,     ZX_2,     ZX_3,
  ZX_4,     ZX_5,     ZX_6,     ZX_7,
  ZX_8,     ZX_9,     ZX_0,     ZX_DOT,
  0, ZX_0]

/-- Joystick overlay table (usb_to_zx_joystick in ZxMatrixSetUsb):
Sinclair right, left, down, up. -/
def usb_to_zx_joystick : List Nat := [ZX_7, ZX_6, ZX_8, ZX_9]

/-! ## The keyboard matrix (uint8_t zx_matrix[8]) -/

/-- A keyboard matrix: row address (0-7) to row byte.  Rows outside 0-7
are never addressed because ZX_GET_ADDRESS masks with 7. -/
def ZxMatrix : Type := Nat → Nat

/-- The all-zero matrix (uint8_t zx_matrix[8] = {0}). -/
def zeroMatrix : ZxMatrix := fun _ => 0

/-- ZxMatrixGet: read the bit of an encoded ZX key. -/
def ZxMatrixGet (zx_matix : ZxMatrix) (zx_key : Nat) : Nat :=
  zx_matix (ZX_GET_ADDRESS zx_key) &&& (1 <<< ZX_GET_DATA zx_key)

/-- ZxMatrixSet: OR the bit of an encoded ZX key into its row. -/
def ZxMatrixSet (zx_matrix : ZxMatrix) (zx_key : Nat) : ZxMatrix :=
  fun r => if r = ZX_GET_ADDRESS zx_key
    then zx_matrix r ||| (1 <<< ZX_GET_DATA zx_key)
    else zx_matrix r

/-- The C expression usb_key - (STD_KEYS_OFFSET + KEY_RIGHTARROW) on a
32-bit unsigned, wraparound included. -/
def usbJoyIndex (usb_key : Nat) : Nat :=
  (usb_key + 2 ^ 32 - (STD_KEYS_OFFSET + KEY_RIGHTARROW)) % 2 ^ 32

/-- ZxMatrixSetUsb: process one usb_to_zx index.  The first component is
the updated matrix; the second is true exactly when the source would
call DebugOutput for an unknown key. -/
def ZxMatrixSetUsb (sinclair_joystic : Bool) (zx_matrix : ZxMatrix)
    (usb_key : Nat) : ZxMatrix × Bool :=
  if sinclair_joystic = true ∧ usbJoyIndex usb_key < usb_to_zx_joystick.length then
    (ZxMatrixSet zx_matrix (usb_to_zx_joystick.getD (usbJoyIndex usb_key) 0), false)
  else if usb_key < usb_to_zx.length ∧ usb_to_zx.getD usb_key 0 ≠ NONE then
    (let zx_key := usb_to_zx.getD usb_key 0
     let m1 := ZxMatrixSet zx_matrix zx_key
     let m2 := if zx_key &&& ZXM_CAP ≠ 0 then ZxMatrixSet m1 ZX_CAPS else m1
     if zx_key &&& ZXM_SYM ≠ 0 then ZxMatrixSet m2 ZX_SYM else m2, false)
  else (zx_matrix, true)

/-- Matrix effect of ZxMatrixSetUsb. -/
def zxApplyUsb (sinclair_joystic : Bool) (zx_matrix : ZxMatrix)
    (usb_key : Nat) : ZxMatrix :=
  (ZxMatrixSetUsb sinclair_joystic zx_matrix usb_key).fst

/-- Process a list of usb_to_zx indices in order, as the two loops of
MyIdle do. -/
def applyUsbKeys (sinclair_joystic : Bool) (l : List Nat) (m : ZxMatrix) :
    ZxMatrix :=
  l.foldl (fun m k => zxApplyUsb sinclair_joystic m k) m

/-! ## The poll cycle MyIdle -/

/-- One HID keyboard report: the 8 modifier bytes that precede the key
array in HID_KEYBD_Info_TypeDef (lctrl, lshift, lalt, lgui, rctrl,
rshift, ralt, rgui) and the array of pressed usage codes. -/
structure KeyReport where
  shifts : List Nat
  keys : List Nat

/-- The ZX matrix calculation of MyIdle: the modifier loop over the 8
shift bytes followed by the loop over the key array.  The usb_key
parameter of ZxMatrixSetUsb is a uint8_t, so the argument
STD_KEYS_OFFSET + keys[i] is truncated to 8 bits at the call: key
bytes 0xFC-0xFF wrap around to table indices 0-3. -/
def buildZxMatrix (sinclair_joystic : Bool) (rpt : KeyReport) : ZxMatrix :=
  let m1 := (List.range USB_SHIFTS_COUNT).foldl
    (fun m i => if rpt.shifts.getD i 0 ≠ 0 then zxApplyUsb sinclair_joystic m i else m)
    zeroMatrix
  rpt.keys.foldl
    (fun m k => if KEY_A ≤ k then
      zxApplyUsb sinclair_joystic m ((STD_KEYS_OFFSET + k) % 2 ^ 8) else m)
    m1

/-- The Modes block of MyIdle: ZX_CURJO forces standard keyboard,
else ZX_SINJO forces joystick, else the flag is kept. -/
def modeUpdate (zx_matrix : ZxMatrix) (sinclair_joystic : Bool) : Bool :=
  if ZxMatrixGet zx_matrix ZX_CURJO ≠ 0 then false
  else if ZxMatrixGet zx_matrix ZX_SINJO ≠ 0 then true
  else sinclair_joystic

/-! ## The response-table precompute loop -/

/-- The inner loop of the precompute step: p accumulates the OR of the
matrix bytes at the rows whose bit of z is clear, and z is shifted
right once per row.  Reads of the uint8_t rows are taken modulo 2^8. -/
def precompLoop (m : ZxMatrix) (i : Nat) : Nat :=
  ((List.range 8).foldl
    (fun pz j => (if pz.2 &&& 1 = 0 then pz.1 ||| m j % 2 ^ 8 else pz.1, pz.2 >>> 1))
    (0, i)).1

/-- The byte stored at index i of the table: the 32-bit complement of p
truncated to the uint8_t cell. -/
def respEntry (m : ZxMatrix) (i : Nat) : Nat :=
  (2 ^ 32 - 1 - precompLoop m i) % 2 ^ 8

/-- The precompute loop of MyIdle writing entries 0 to 254 into a
buffer (the buffers hold 0x100 bytes). -/
def precomputeInto (m : ZxMatrix) (buf : List Nat) : List Nat :=
  (List.range (0x100 - 1)).foldl (fun b i => b.set i (respEntry m i)) buf

/-- Specification-side description of the selected-row OR: the OR of
the rows whose bit of the index i is clear (the address lines are
active-low). -/
def orRowsClear (m : ZxMatrix) (i : Nat) : Nat :=
  (List.range 8).foldl (fun p r => if i.testBit r then p else p ||| m r) 0

/-- The OR of all 8 rows. -/
def orAllRows (m : ZxMatrix) : Nat :=
  (List.range 8).foldl (fun p r => p ||| m r) 0

/-! ## Firmware state and the full poll cycle -/

/-- The mutable firmware state: the published pointer (0 when it points
at zx_prepared_a, 1 when at zx_prepared_b), the two table buffers, and
the joystick-mode flag. -/
structure SysState where
  zx_prepared : Nat
  bufA : List Nat
  bufB : List Nat
  sinclair_joystic : Bool

/-- Initial state: both tables all 0xFF, pointer at buffer a, standard
keyboard mode. -/
def initState : SysState :=
  { zx_prepared := 0
    bufA := List.replicate 0x100 0xFF
    bufB := List.replicate 0x100 0xFF
    sinclair_joystic := false }

/-- One MyIdle invocation.  classActive models
hUsbHostFS.pActiveClass == USBH_HID_CLASS; report is none when
USBH_HID_GetKeybdInfo returns NULL.  Either failure is an early
return. -/
def MyIdle (classActive : Bool) (report : Option KeyReport) (s : SysState) :
    SysState :=
  if classActive = false then s
  else match report with
  | none => s
  | some rpt =>
    let m := buildZxMatrix s.sinclair_joystic rpt
    let sj := modeUpdate m s.sinclair_joystic
    if s.zx_prepared ≠ 0 then
      { zx_prepared := 0, bufA := precomputeInto m s.bufA, bufB := s.bufB,
        sinclair_joystic := sj }
    else
      { zx_prepared := 1, bufA := s.bufA, bufB := precomputeInto m s.bufB,
        sinclair_joystic := sj }

/-! ## Event trace of one precompute phase (for the double-buffer
discipline) -/

/-- Observable actions of the precompute phase on the shared buffers:
a store into one buffer, or the publication of one buffer. -/
inductive BufEvent where
  | write (buf : Nat) (idx : Nat) (val : Nat)
  | publish (buf : Nat)
deriving DecidableEq

/-- Whether an event is the pointer publication. -/
def isPublish : BufEvent → Bool
  | BufEvent.publish _ => true
  | BufEvent.write _ _ _ => false

/-- The sequence of buffer actions a MyIdle cycle performs once it has
built its matrix: 255 stores into the inactive buffer, in index order,
then the single pointer store. -/
def cycleEvents (s : SysState) (rpt : KeyReport) : List BufEvent :=
  let m := buildZxMatrix s.sinclair_joystic rpt
  let a := if s.zx_prepared ≠ 0 then 0 else 1
  ((List.range (0x100 - 1)).map fun i => BufEvent.write a i (respEntry m i))
    ++ [BufEvent.publish a]

/-! ## OR-mask algebra: every matrix operation of the firmware only ORs
a key-determined mask into the matrix -/

set_option maxRecDepth 100000

/-- Pointwise OR of two matrices. -/
def orMask (m c : ZxMatrix) : ZxMatrix := fun r => m r ||| c r

lemma orMask_assoc (m a b : ZxMatrix) :
    orMask (orMask m a) b = orMask m (orMask a b) := by
  funext r
  simp [orMask, Nat.or_assoc]

lemma ZxMatrixSet_eq_orMask (m : ZxMatrix) (k : Nat) :
    ZxMatrixSet m k = orMask m (ZxMatrixSet zeroMatrix k) := by
  funext r
  by_cases h : r = ZX_GET_ADDRESS k <;> simp [ZxMatrixSet, orMask, zeroMatrix, h]

/-- A matrix transformer that only ORs in a fixed mask (its effect on
the zero matrix). -/
def IsOrAdd (f : ZxMatrix → ZxMatrix) : Prop :=
  ∀ m, f m = orMask m (f zeroMatrix)

lemma isOrAdd_id : IsOrAdd (fun m => m) := by
  intro m
  funext r
  simp [orMask, zeroMatrix]

lemma isOrAdd_set (k : Nat) : IsOrAdd (fun m => ZxMatrixSet m k) := by
  intro m
  exact ZxMatrixSet_eq_orMask m k

lemma IsOrAdd.comp {f g : ZxMatrix → ZxMatrix} (hf : IsOrAdd f)
    (hg : IsOrAdd g) : IsOrAdd (fun m => g (f m)) := by
  intro m
  show g (f m) = orMask m (g (f zeroMatrix))
  rw [hf m, hg (orMask m (f zeroMatrix)), orMask_assoc, ← hg (f zeroMatrix)]

lemma orAdd_comm {f g : ZxMatrix → ZxMatrix} (hf : IsOrAdd f)
    (hg : IsOrAdd g) (m : ZxMatrix) : f (g m) = g (f m) := by
  rw [hg m, hf (orMask m (g zeroMatrix)), hf m, hg (orMask m (f zeroMatrix))]
  funext r
  simp only [orMask]
  rw [Nat.or_assoc, Nat.or_assoc, Nat.or_comm (g zeroMatrix r)]

/-! ## Branch equations for ZxMatrixSetUsb -/

lemma zxApplyUsb_joy (sj : Bool) (uk : Nat) (m : ZxMatrix)
    (h : sj = true ∧ usbJoyIndex uk < usb_to_zx_joystick.length) :
    zxApplyUsb sj m uk =
      ZxMatrixSet m (usb_to_zx_joystick.getD (usbJoyIndex uk) 0) := by
  unfold zxApplyUsb ZxMatrixSetUsb
  rw [if_pos h]

lemma zxApplyUsb_table (sj : Bool) (uk : Nat) (m : ZxMatrix)
    (h1 : ¬(sj = true ∧ usbJoyIndex uk < usb_to_zx_joystick.length))
    (h2 : uk < usb_to_zx.length ∧ usb_to_zx.getD uk 0 ≠ NONE) :
    zxApplyUsb sj m uk =
      (if usb_to_zx.getD uk 0 &&& ZXM_SYM ≠ 0 then
        ZxMatrixSet
          (if usb_to_zx.getD uk 0 &&& ZXM_CAP ≠ 0 then
            ZxMatrixSet (ZxMatrixSet m (usb_to_zx.getD uk 0)) ZX_CAPS
          else ZxMatrixSet m (usb_to_zx.getD uk 0)) ZX_SYM
      else
        (if usb_to_zx.getD uk 0 &&& ZXM_CAP ≠ 0 then
          ZxMatrixSet (ZxMatrixSet m (usb_to_zx.getD uk 0)) ZX_CAPS
        else ZxMatrixSet m (usb_to_zx.getD uk 0))) := by
  unfold zxApplyUsb ZxMatrixSetUsb
  rw [if_neg h1, if_pos h2]

lemma zxApplyUsb_unknown (sj : Bool) (uk : Nat) (m : ZxMatrix)
    (h1 : ¬(sj = true ∧ usbJoyIndex uk < usb_to_zx_joystick.length))
    (h2 : ¬(uk < usb_to_zx.length ∧ usb_to_zx.getD uk 0 ≠ NONE)) :
    zxApplyUsb sj m uk = m := by
  unfold zxApplyUsb ZxMatrixSetUsb
  rw [if_neg h1, if_neg h2]

lemma isOrAdd_zxApplyUsb (sj : Bool) (uk : Nat) :
    IsOrAdd (fun m => zxApplyUsb sj m uk) := by
  by_cases h1 : sj = true ∧ usbJoyIndex uk < usb_to_zx_joystick.length
  · intro m
    show zxApplyUsb sj m uk = orMask m (zxApplyUsb sj zeroMatrix uk)
    rw [zxApplyUsb_joy sj uk m h1, zxApplyUsb_joy sj uk zeroMatrix h1]
    exact ZxMatrixSet_eq_orMask m _
  · by_cases h2 : uk < usb_to_zx.length ∧ usb_to_zx.getD uk 0 ≠ NONE
    · intro m
      show zxApplyUsb sj m uk = orMask m (zxApplyUsb sj zeroMatrix uk)
      rw [zxApplyUsb_table sj uk m h1 h2, zxApplyUsb_table sj uk zeroMatrix h1 h2]
      by_cases hs : usb_to_zx.getD uk 0 &&& ZXM_SYM ≠ 0 <;>
        by_cases hc : usb_to_zx.getD uk 0 &&& ZXM_CAP ≠ 0
      · rw [if_pos hs, if_pos hs, if_pos hc, if_pos hc]
        exact ((isOrAdd_set _).comp (isOrAdd_set ZX_CAPS)).comp (isOrAdd_set ZX_SYM) m
      · rw [if_pos hs, if_pos hs, if_neg hc, if_neg hc]
        exact ((isOrAdd_set _).comp (isOrAdd_set ZX_SYM)) m
      · rw [if_neg hs, if_neg hs, if_pos hc, if_pos hc]
        exact ((isOrAdd_set _).comp (isOrAdd_set ZX_CAPS)) m
      · rw [if_neg hs, if_neg hs, if_neg hc, if_neg hc]
        exact isOrAdd_set _ m
    · intro m
      show zxApplyUsb sj m uk = orMask m (zxApplyUsb sj zeroMatrix uk)
      rw [zxApplyUsb_unknown sj uk m h1 h2, zxApplyUsb_unknown sj uk zeroMatrix h1 h2]
      funext r
      simp [orMask, zeroMatrix]

/-! ## Equations for one successful MyIdle cycle -/

lemma MyIdle_target_a (rpt : KeyReport) (s : SysState)
    (h : s.zx_prepared ≠ 0) :
    MyIdle true (some rpt) s =
      { zx_prepared := 0,
        bufA := precomputeInto (buildZxMatrix s.sinclair_joystic rpt) s.bufA,
        bufB := s.bufB,
        sinclair_joystic := modeUpdate (buildZxMatrix s.sinclair_joystic rpt)
          s.sinclair_joystic } := by
  show (if s.zx_prepared ≠ 0 then
      { zx_prepared := 0,
        bufA := precomputeInto (buildZxMatrix s.sinclair_joystic rpt) s.bufA,
        bufB := s.bufB,
        sinclair_joystic := modeUpdate (buildZxMatrix s.sinclair_joystic rpt)
          s.sinclair_joystic }
    else
      { zx_prepared := 1,
        bufA := s.bufA,
        bufB := precomputeInto (buildZxMatrix s.sinclair_joystic rpt) s.bufB,
        sinclair_joystic := modeUpdate (buildZxMatrix s.sinclair_joystic rpt)
          s.sinclair_joystic } : SysState) = _
  rw [if_pos h]

lemma MyIdle_target_b (rpt : KeyReport) (s : SysState)
    (h : ¬s.zx_prepared ≠ 0) :
    MyIdle true (some rpt) s =
      { zx_prepared := 1,
        bufA := s.bufA,
        bufB := precomputeInto (buildZxMatrix s.sinclair_joystic rpt) s.bufB,
        sinclair_joystic := modeUpdate (buildZxMatrix s.sinclair_joystic rpt)
          s.sinclair_joystic } := by
  show (if s.zx_prepared ≠ 0 then
      { zx_prepared := 0,
        bufA := precomputeInto (buildZxMatrix s.sinclair_joystic rpt) s.bufA,
        bufB := s.bufB,
        sinclair_joystic := modeUpdate (buildZxMatrix s.sinclair_joystic rpt)
          s.sinclair_joystic }
    else
      { zx_prepared := 1,
        bufA := s.bufA,
        bufB := precomputeInto (buildZxMatrix s.sinclair_joystic rpt) s.bufB,
        sinclair_joystic := modeUpdate (buildZxMatrix s.sinclair_joystic rpt)
          s.sinclair_joystic } : SysState) = _
  rw [if_neg h]

/-! ## Claim C3: order independence of the matrix build -/

/-- C3: for every joystick-mode value and every list of pressed
usb_to_zx indices (standard usage codes plus modifier-bit indices) with
no unmapped members, processing the list in any permuted order builds
the same matrix: bit-setting is an idempotent, commutative OR. -/
theorem c3_matrix_build_perm_invariant (sj : Bool) (l1 l2 : List Nat)
    (m : ZxMatrix)
    (hmapped : ∀ k ∈ l1, k < usb_to_zx.length ∧ usb_to_zx.getD k 0 ≠ NONE)
    (hperm : l1.Perm l2) :
    applyUsbKeys sj l1 m = applyUsbKeys sj l2 m := by
  unfold applyUsbKeys
  exact hperm.foldl_eq'
    (fun x _ y _ z =>
      orAdd_comm (isOrAdd_zxApplyUsb sj y) (isOrAdd_zxApplyUsb sj x) z) m

/-- Witness for C3: LSHIFT (modifier index 1) and the letters A and B,
processed in two different orders. -/
theorem c3_matrix_build_perm_invariant_witness :
    applyUsbKeys false [1, 8, 9] zeroMatrix =
      applyUsbKeys false [9, 1, 8] zeroMatrix :=
  c3_matrix_build_perm_invariant false [1, 8, 9] [9, 1, 8] zeroMatrix
    (by decide) (by decide)

/-! ## Claim C5: the mode controller -/

lemma modeFold_stays_true (ms : List ZxMatrix)
    (h : ∀ m ∈ ms, ZxMatrixGet m ZX_CURJO = 0) :
    ms.foldl (fun j m => modeUpdate m j) true = true := by
  induction ms with
  | nil => rfl
  | cons m ms ih =>
    have hm : ZxMatrixGet m ZX_CURJO = 0 := h m (List.mem_cons_self m ms)
    have hstep : modeUpdate m true = true := by
      unfold modeUpdate
      rw [if_neg (fun hn => hn hm)]
      by_cases hs : ZxMatrixGet m ZX_SINJO ≠ 0
      · rw [if_pos hs]
      · rw [if_neg hs]
    show List.foldl (fun j m => modeUpdate m j) (modeUpdate m true) ms = true
    rw [hstep]
    exact ih (fun x hx => h x (List.mem_cons_of_mem m hx))

/-- C5: after each cycle the mode update on the freshly built matrix
clears the flag when the force-standard key ZX_CURJO is asserted, else
sets it when the force-joystick key ZX_SINJO is asserted, else keeps
it; consequently asserting ZX_SINJO for one cycle and then releasing
it leaves the flag true for any run of later cycles in which ZX_CURJO
stays released.  The last conjunct ties the update into the MyIdle
cycle. -/
theorem c5_mode_controller :
    (∀ (m : ZxMatrix) (sj : Bool),
      ZxMatrixGet m ZX_CURJO ≠ 0 → modeUpdate m sj = false)
    ∧ (∀ (m : ZxMatrix) (sj : Bool), ZxMatrixGet m ZX_CURJO = 0 →
        ZxMatrixGet m ZX_SINJO ≠ 0 → modeUpdate m sj = true)
    ∧ (∀ (m : ZxMatrix) (sj : Bool), ZxMatrixGet m ZX_CURJO = 0 →
        ZxMatrixGet m ZX_SINJO = 0 → modeUpdate m sj = sj)
    ∧ (∀ (m0 : ZxMatrix) (ms : List ZxMatrix) (sj : Bool),
        ZxMatrixGet m0 ZX_CURJO = 0 → ZxMatrixGet m0 ZX_SINJO ≠ 0 →
        (∀ m ∈ ms, ZxMatrixGet m ZX_CURJO = 0) →
        ms.foldl (fun j m => modeUpdate m j) (modeUpdate m0 sj) = true)
    ∧ (∀ (rpt : KeyReport) (s : SysState),
        (MyIdle true (some rpt) s).sinclair_joystic =
          modeUpdate (buildZxMatrix s.sinclair_joystic rpt)
            s.sinclair_joystic) := by
  have h1 : ∀ (m : ZxMatrix) (sj : Bool),
      ZxMatrixGet m ZX_CURJO ≠ 0 → modeUpdate m sj = false := by
    intro m sj h
    unfold modeUpdate
    rw [if_pos h]
  have h2 : ∀ (m : ZxMatrix) (sj : Bool), ZxMatrixGet m ZX_CURJO = 0 →
      ZxMatrixGet m ZX_SINJO ≠ 0 → modeUpdate m sj = true := by
    intro m sj h hs
    unfold modeUpdate
    rw [if_neg (fun hn => hn h), if_pos hs]
  refine ⟨h1, h2, ?_, ?_, ?_⟩
  · intro m sj h hs
    unfold modeUpdate
    rw [if_neg (fun hn => hn h), if_neg (fun hn => hn hs)]
  · intro m0 ms sj h hs hms
    rw [h2 m0 sj h hs]
    exact modeFold_stays_true ms hms
  · intro rpt s
    by_cases h : s.zx_prepared ≠ 0
    · rw [MyIdle_target_a rpt s h]
    · rw [MyIdle_target_b rpt s h]

/-- Witness for C5: a cycle that asserts only ZX_SINJO turns the flag
on, and it stays on over two further cycles with both reserved keys
released. -/
theorem c5_mode_controller_witness :
    List.foldl (fun j m => modeUpdate m j)
      (modeUpdate (ZxMatrixSet zeroMatrix ZX_SINJO) false)
      [zeroMatrix, zeroMatrix] = true :=
  c5_mode_controller.2.2.2.1 (ZxMatrixSet zeroMatrix ZX_SINJO)
    [zeroMatrix, zeroMatrix] false (by decide) (by decide)
    (by
      intro m hm
      have h0 : m = zeroMatrix := by
        rcases List.mem_cons.mp hm with h | h
        · exact h
        · rcases List.mem_cons.mp h with h2 | h2
          · exact h2
          · cases h2
      rw [h0]
      decide)

/-! ## Claim C10: no device means no state change -/

/-- C10: when the HID class is not active, or no key report is
available, MyIdle returns early: the published handle, both table
buffers, and the joystick-mode flag are all unchanged. -/
theorem c10_no_device_noop (classActive : Bool) (report : Option KeyReport)
    (s : SysState) (h : classActive = false ∨ report = none) :
    (MyIdle classActive report s).zx_prepared = s.zx_prepared
    ∧ (MyIdle classActive report s).bufA = s.bufA
    ∧ (MyIdle classActive report s).bufB = s.bufB
    ∧ (MyIdle classActive report s).sinclair_joystic = s.sinclair_joystic := by
  have hid : MyIdle classActive report s = s := by
    rcases h with h | h
    · subst h
      rfl
    · subst h
      unfold MyIdle
      by_cases hc : classActive = false
      · rw [if_pos hc]
      · rw [if_neg hc]
  rw [hid]
  exact ⟨rfl, rfl, rfl, rfl⟩

/-- Witness for C10: a cycle with a report but the HID class inactive
leaves the initial state untouched. -/
theorem c10_no_device_noop_witness :
    (MyIdle false (some ⟨[1, 0, 0, 0, 0, 0, 0, 0], [4, 0, 0, 0, 0, 0]⟩)
        initState).zx_prepared = initState.zx_prepared
    ∧ (MyIdle false (some ⟨[1, 0, 0, 0, 0, 0, 0, 0], [4, 0, 0, 0, 0, 0]⟩)
        initState).bufA = initState.bufA
    ∧ (MyIdle false (some ⟨[1, 0, 0, 0, 0, 0, 0, 0], [4, 0, 0, 0, 0, 0]⟩)
        initState).bufB = initState.bufB
    ∧ (MyIdle false (some ⟨[1, 0, 0, 0, 0, 0, 0, 0], [4, 0, 0, 0, 0, 0]⟩)
        initState).sinclair_joystic = initState.sinclair_joystic :=
  c10_no_device_noop false
    (some ⟨[1, 0, 0, 0, 0, 0, 0, 0], [4, 0, 0, 0, 0, 0]⟩) initState
    (Or.inl rfl)

/-! ## Claim C2: the double-buffer publish discipline -/

lemma cycleEvents_eq (s : SysState) (rpt : KeyReport) :
    cycleEvents s rpt =
      ((List.range 255).map fun i =>
        BufEvent.write (if s.zx_prepared ≠ 0 then 0 else 1) i
          (respEntry (buildZxMatrix s.sinclair_joystic rpt) i))
      ++ [BufEvent.publish (if s.zx_prepared ≠ 0 then 0 else 1)] := rfl

/-- C2: in every successful poll cycle the handle afterwards points to
one of the two fixed buffers; all 255 precompute stores go to the
buffer that was not published at the start of the cycle; the publish
event occurs exactly once, as the final event after every store; and
the buffer that stays published during the cycle is not modified. -/
theorem c2_double_buffer_discipline (s : SysState) (rpt : KeyReport) :
    (initState.zx_prepared = 0 ∨ initState.zx_prepared = 1)
    ∧ ((MyIdle true (some rpt) s).zx_prepared = 0 ∨
        (MyIdle true (some rpt) s).zx_prepared = 1)
    ∧ (MyIdle true (some rpt) s).zx_prepared =
        (if s.zx_prepared ≠ 0 then 0 else 1)
    ∧ (if s.zx_prepared ≠ 0 then 0 else 1) ≠ s.zx_prepared
    ∧ (∀ b i v, BufEvent.write b i v ∈ cycleEvents s rpt →
        b = (if s.zx_prepared ≠ 0 then 0 else 1) ∧ b ≠ s.zx_prepared ∧ i < 255)
    ∧ (∀ i, i < 255 →
        BufEvent.write (if s.zx_prepared ≠ 0 then 0 else 1) i
          (respEntry (buildZxMatrix s.sinclair_joystic rpt) i)
          ∈ cycleEvents s rpt)
    ∧ (cycleEvents s rpt).filter isPublish =
        [BufEvent.publish (if s.zx_prepared ≠ 0 then 0 else 1)]
    ∧ (cycleEvents s rpt).getLast? =
        some (BufEvent.publish (if s.zx_prepared ≠ 0 then 0 else 1))
    ∧ ((if s.zx_prepared ≠ 0 then 0 else 1) = (0 : Nat) →
        (MyIdle true (some rpt) s).bufB = s.bufB)
    ∧ ((if s.zx_prepared ≠ 0 then 0 else 1) = (1 : Nat) →
        (MyIdle true (some rpt) s).bufA = s.bufA) := by
  have htgt : (if s.zx_prepared ≠ 0 then 0 else 1) ≠ s.zx_prepared := by
    by_cases h : s.zx_prepared ≠ 0
    · rw [if_pos h]
      exact fun he => h he.symm
    · rw [if_neg h]
      omega
  have hzx : (MyIdle true (some rpt) s).zx_prepared =
      (if s.zx_prepared ≠ 0 then 0 else 1) := by
    by_cases h : s.zx_prepared ≠ 0
    · rw [MyIdle_target_a rpt s h, if_pos h]
    · rw [MyIdle_target_b rpt s h, if_neg h]
  refine ⟨Or.inl rfl, ?_, hzx, htgt, ?_, ?_, ?_, ?_, ?_, ?_⟩
  · rw [hzx]
    by_cases h : s.zx_prepared ≠ 0
    · rw [if_pos h]
      exact Or.inl rfl
    · rw [if_neg h]
      exact Or.inr rfl
  · intro b i v hmem
    rw [cycleEvents_eq] at hmem
    rcases List.mem_append.mp hmem with hmem | hmem
    · rcases List.mem_map.mp hmem with ⟨i0, hi0, heq⟩
      have hb : (if s.zx_prepared ≠ 0 then 0 else 1) = b ∧ i0 = i ∧
          respEntry (buildZxMatrix s.sinclair_joystic rpt) i0 = v := by
        simpa [BufEvent.write.injEq] using heq
      refine ⟨hb.1.symm, hb.1 ▸ htgt, ?_⟩
      rw [← hb.2.1]
      exact List.mem_range.mp hi0
    · exact BufEvent.noConfusion (List.mem_singleton.mp hmem)
  · intro i hi
    rw [cycleEvents_eq]
    exact List.mem_append_left _
      (List.mem_map.mpr ⟨i, List.mem_range.mpr hi, rfl⟩)
  · rw [cycleEvents_eq, List.filter_append]
    have hmap : (((List.range 255).map fun i =>
        BufEvent.write (if s.zx_prepared ≠ 0 then 0 else 1) i
          (respEntry (buildZxMatrix s.sinclair_joystic rpt) i)).filter
        isPublish) = [] := by
      rw [List.filter_eq_nil_iff]
      intro a ha
      rcases List.mem_map.mp ha with ⟨i0, _, heq⟩
      rw [← heq]
      simp [isPublish]
    rw [hmap]
    rfl
  · rw [cycleEvents_eq]
    exact List.getLast?_concat _
  · intro h0
    by_cases h : s.zx_prepared ≠ 0
    · rw [MyIdle_target_a rpt s h]
    · rw [if_neg h] at h0
      cases h0
  · intro h1
    by_cases h : s.zx_prepared ≠ 0
    · rw [if_pos h] at h1
      cases h1
    · rw [MyIdle_target_b rpt s h]

/-- Witness for C2: in the initial state the inactive buffer is b
(index 1), and the store of entry 7 is among the cycle's events. -/
theorem c2_double_buffer_discipline_witness :
    BufEvent.write (if initState.zx_prepared ≠ 0 then 0 else 1) 7
      (respEntry (buildZxMatrix initState.sinclair_joystic ⟨[], []⟩) 7)
      ∈ cycleEvents initState ⟨[], []⟩ :=
  (c2_double_buffer_discipline initState ⟨[], []⟩).2.2.2.2.2.1 7 (by decide)

/-! ## Bit-level helpers -/

lemma or_and_ne_zero_right (x y b : Nat) (h : y &&& b ≠ 0) :
    (x ||| y) &&& b ≠ 0 := by
  obtain ⟨i, hi⟩ := Nat.ne_zero_implies_bit_true h
  rw [Nat.testBit_and, Bool.and_eq_true] at hi
  intro h0
  have hbit : ((x ||| y) &&& b).testBit i = true := by
    simp [Nat.testBit_and, Nat.testBit_or, hi.1, hi.2]
  rw [h0] at hbit
  simp at hbit

lemma ZxMatrixGet_orMask_right (m c : ZxMatrix) (k : Nat)
    (h : ZxMatrixGet c k ≠ 0) : ZxMatrixGet (orMask m c) k ≠ 0 := by
  unfold ZxMatrixGet orMask at *
  exact or_and_ne_zero_right _ _ _ h

lemma get_set_untouched (m : ZxMatrix) (k1 k2 : Nat)
    (h : ZX_GET_ADDRESS k1 ≠ ZX_GET_ADDRESS k2 ∨
      (1 <<< ZX_GET_DATA k1) &&& (1 <<< ZX_GET_DATA k2) = 0) :
    ZxMatrixGet (ZxMatrixSet m k1) k2 = ZxMatrixGet m k2 := by
  unfold ZxMatrixGet ZxMatrixSet
  by_cases ha : ZX_GET_ADDRESS k2 = ZX_GET_ADDRESS k1
  · rw [if_pos ha]
    rcases h with h | h
    · exact absurd ha.symm h
    · rw [Nat.and_distrib_right, h, Nat.or_zero]
  · rw [if_neg ha]

lemma zxApplyUsb_of_not_joy (sj : Bool) (uk : Nat) (m : ZxMatrix)
    (h : ¬(sj = true ∧ usbJoyIndex uk < usb_to_zx_joystick.length)) :
    zxApplyUsb sj m uk = zxApplyUsb false m uk := by
  by_cases h2 : uk < usb_to_zx.length ∧ usb_to_zx.getD uk 0 ≠ NONE
  · rw [zxApplyUsb_table sj uk m h h2,
      zxApplyUsb_table false uk m (by simp) h2]
  · rw [zxApplyUsb_unknown sj uk m h h2,
      zxApplyUsb_unknown false uk m (by simp) h2]

/-! ## Claim C4: the joystick overlay -/

/-- C4: in joystick mode each of the four directional usb_to_zx indices
(0x53 right, 0x54 left, 0x55 down, 0x56 up, i.e. usage codes 0x4F-0x52
shifted by STD_KEYS_OFFSET) is processed as exactly one ZxMatrixSet of
the corresponding fixed joystick-emulation key; the normal table
mapping for the code is skipped, so the bit of the code's normal
(arrow) coordinate, the Caps-shift bit, and the Symbol-shift bit all
keep the value they had before the code was processed. -/
theorem c4_joystick_overlay (m : ZxMatrix) (uk : Nat)
    (h1 : STD_KEYS_OFFSET + KEY_RIGHTARROW ≤ uk)
    (h2 : uk < STD_KEYS_OFFSET + KEY_RIGHTARROW + 4) :
    zxApplyUsb true m uk =
      ZxMatrixSet m
        (usb_to_zx_joystick.getD (uk - (STD_KEYS_OFFSET + KEY_RIGHTARROW)) 0)
    ∧ ZxMatrixGet (zxApplyUsb true m uk) (usb_to_zx.getD uk 0) =
        ZxMatrixGet m (usb_to_zx.getD uk 0)
    ∧ ZxMatrixGet (zxApplyUsb true m uk) ZX_CAPS = ZxMatrixGet m ZX_CAPS
    ∧ ZxMatrixGet (zxApplyUsb true m uk) ZX_SYM = ZxMatrixGet m ZX_SYM := by
  have h1n : 0x53 ≤ uk := h1
  have h2n : uk < 0x57 := h2
  interval_cases uk <;>
    rw [zxApplyUsb_joy true _ m ⟨rfl, by decide⟩] <;>
    refine ⟨congrArg (ZxMatrixSet m) (by decide), ?_, ?_, ?_⟩ <;>
    first
      | exact get_set_untouched m _ _ (Or.inr (by decide))
      | exact get_set_untouched m _ _ (Or.inl (by decide))

/-- Witness for C4: the right-arrow code in joystick mode, from the
empty matrix. -/
theorem c4_joystick_overlay_witness :
    zxApplyUsb true zeroMatrix 0x53 =
      ZxMatrixSet zeroMatrix
        (usb_to_zx_joystick.getD (0x53 - (STD_KEYS_OFFSET + KEY_RIGHTARROW)) 0)
    ∧ ZxMatrixGet (zxApplyUsb true zeroMatrix 0x53) (usb_to_zx.getD 0x53 0) =
        ZxMatrixGet zeroMatrix (usb_to_zx.getD 0x53 0)
    ∧ ZxMatrixGet (zxApplyUsb true zeroMatrix 0x53) ZX_CAPS =
        ZxMatrixGet zeroMatrix ZX_CAPS
    ∧ ZxMatrixGet (zxApplyUsb true zeroMatrix 0x53) ZX_SYM =
        ZxMatrixGet zeroMatrix ZX_SYM :=
  c4_joystick_overlay zeroMatrix 0x53 (by decide) (by decide)

/-! ## Claim C6: modifier injection -/

lemma c6_core : ∀ uk ∈ List.range 106, usb_to_zx.getD uk 0 ≠ NONE →
    ((usb_to_zx.getD uk 0 &&& ZXM_CAP ≠ 0 →
      ZxMatrixGet (zxApplyUsb false zeroMatrix uk) (usb_to_zx.getD uk 0) ≠ 0
      ∧ ZxMatrixGet (zxApplyUsb false zeroMatrix uk) ZX_CAPS ≠ 0)
    ∧ (usb_to_zx.getD uk 0 &&& ZXM_SYM ≠ 0 →
      ZxMatrixGet (zxApplyUsb false zeroMatrix uk) (usb_to_zx.getD uk 0) ≠ 0
      ∧ ZxMatrixGet (zxApplyUsb false zeroMatrix uk) ZX_SYM ≠ 0)) := by
  decide

/-- C6: for every mapped usb_to_zx index processed through the normal
table path, if its entry carries the ZXM_CAP flag then the processed
matrix has both the entry's own bit and the Caps-shift bit set, and if
it carries the ZXM_SYM flag then both the entry's own bit and the
Symbol-shift bit are set -- the flagged key never appears without its
injected modifier. -/
theorem c6_modifier_injection (sj : Bool) (m : ZxMatrix) (uk : Nat)
    (hlen : uk < usb_to_zx.length)
    (hjoy : ¬(sj = true ∧ usbJoyIndex uk < usb_to_zx_joystick.length))
    (hmapped : usb_to_zx.getD uk 0 ≠ NONE) :
    (usb_to_zx.getD uk 0 &&& ZXM_CAP ≠ 0 →
      ZxMatrixGet (zxApplyUsb sj m uk) (usb_to_zx.getD uk 0) ≠ 0
      ∧ ZxMatrixGet (zxApplyUsb sj m uk) ZX_CAPS ≠ 0)
    ∧ (usb_to_zx.getD uk 0 &&& ZXM_SYM ≠ 0 →
      ZxMatrixGet (zxApplyUsb sj m uk) (usb_to_zx.getD uk 0) ≠ 0
      ∧ ZxMatrixGet (zxApplyUsb sj m uk) ZX_SYM ≠ 0) := by
  rw [zxApplyUsb_of_not_joy sj uk m hjoy]
  have hOr : zxApplyUsb false m uk =
      orMask m (zxApplyUsb false zeroMatrix uk) := isOrAdd_zxApplyUsb false uk m
  rw [hOr]
  have h106 : usb_to_zx.length = 106 := rfl
  rw [h106] at hlen
  have hcore := c6_core uk (List.mem_range.mpr hlen) hmapped
  constructor
  · intro hflag
    rcases hcore.1 hflag with ⟨hown, hcap⟩
    exact ⟨ZxMatrixGet_orMask_right m _ _ hown,
      ZxMatrixGet_orMask_right m _ _ hcap⟩
  · intro hflag
    rcases hcore.2 hflag with ⟨hown, hsym⟩
    exact ⟨ZxMatrixGet_orMask_right m _ _ hown,
      ZxMatrixGet_orMask_right m _ _ hsym⟩

/-- Witness for C6: index 0x2E (usage 0x2A, Backspace, mapped to
ZX_DEL = ZX_0 with the CAP flag), processed from the empty matrix. -/
theorem c6_modifier_injection_witness :
    (usb_to_zx.getD 0x2E 0 &&& ZXM_CAP ≠ 0 →
      ZxMatrixGet (zxApplyUsb false zeroMatrix 0x2E) (usb_to_zx.getD 0x2E 0) ≠ 0
      ∧ ZxMatrixGet (zxApplyUsb false zeroMatrix 0x2E) ZX_CAPS ≠ 0)
    ∧ (usb_to_zx.getD 0x2E 0 &&& ZXM_SYM ≠ 0 →
      ZxMatrixGet (zxApplyUsb false zeroMatrix 0x2E) (usb_to_zx.getD 0x2E 0) ≠ 0
      ∧ ZxMatrixGet (zxApplyUsb false zeroMatrix 0x2E) ZX_SYM ≠ 0) :=
  c6_modifier_injection false zeroMatrix 0x2E (by decide) (by decide) (by decide)

/-! ## Claim C7: which bits of a row byte can be set -/

lemma c7_core_false : ∀ uk ∈ List.range 106, ∀ r ∈ List.range 8,
    zxApplyUsb false zeroMatrix uk r < 128 := by
  decide

lemma c7_core_joy : ∀ i ∈ List.range 4, ∀ r ∈ List.range 8,
    ZxMatrixSet zeroMatrix (usb_to_zx_joystick.getD i 0) r < 128 := by
  decide

lemma zxApplyUsb_mask_lt (sj : Bool) (uk r : Nat) (hr : r < 8) :
    zxApplyUsb sj zeroMatrix uk r < 128 := by
  by_cases h1 : sj = true ∧ usbJoyIndex uk < usb_to_zx_joystick.length
  · rw [zxApplyUsb_joy sj uk zeroMatrix h1]
    exact c7_core_joy (usbJoyIndex uk) (List.mem_range.mpr h1.2) r
      (List.mem_range.mpr hr)
  · rw [zxApplyUsb_of_not_joy sj uk zeroMatrix h1]
    by_cases hlen : uk < 106
    · exact c7_core_false uk (List.mem_range.mpr hlen) r (List.mem_range.mpr hr)
    · have h2 : ¬(uk < usb_to_zx.length ∧ usb_to_zx.getD uk 0 ≠ NONE) := by
        intro hx
        exact hlen hx.1
      rw [zxApplyUsb_unknown false uk zeroMatrix (by simp) h2]
      show (0 : Nat) < 128
      decide

lemma zxApplyUsb_lt_128 (sj : Bool) (uk : Nat) (m : ZxMatrix)
    (hm : ∀ r, r < 8 → m r < 128) :
    ∀ r, r < 8 → zxApplyUsb sj m uk r < 128 := by
  intro r hr
  have hOr : zxApplyUsb sj m uk =
      orMask m (zxApplyUsb sj zeroMatrix uk) := isOrAdd_zxApplyUsb sj uk m
  rw [hOr]
  show m r ||| zxApplyUsb sj zeroMatrix uk r < 128
  have ha : m r < 2 ^ 7 := hm r hr
  have hb : zxApplyUsb sj zeroMatrix uk r < 2 ^ 7 := zxApplyUsb_mask_lt sj uk r hr
  exact Nat.or_lt_two_pow ha hb

lemma foldl_preserve_lt {α : Type} (step : ZxMatrix → α → ZxMatrix)
    (hstep : ∀ m a, (∀ r, r < 8 → m r < 128) → ∀ r, r < 8 → step m a r < 128) :
    ∀ (l : List α) (m : ZxMatrix), (∀ r, r < 8 → m r < 128) →
      ∀ r, r < 8 → l.foldl step m r < 128 := by
  intro l
  induction l with
  | nil => exact fun m hm => hm
  | cons a l ih =>
    intro m hm
    exact ih (step m a) (hstep m a hm)

/-- C7 (corrected): in every matrix built by the poll cycle from any
report and either joystick mode, bit 7 of every row byte is zero (each
row is below 128).  The original claim that bits 5-7 are always zero
fails: the reserved keys RESET, MAGIC, CURJO and SINJO live at data
bits 5 and 6 (see the counterexample). -/
theorem c7_row_bits_amended (sj : Bool) (rpt : KeyReport) :
    ∀ r, r < 8 → buildZxMatrix sj rpt r < 128 := by
  unfold buildZxMatrix
  apply foldl_preserve_lt
  · intro m k hm r hr
    by_cases hk : KEY_A ≤ k
    · rw [if_pos hk]
      exact zxApplyUsb_lt_128 sj ((STD_KEYS_OFFSET + k) % 2 ^ 8) m hm r hr
    · rw [if_neg hk]
      exact hm r hr
  · apply foldl_preserve_lt
    · intro m i hm r hr
      by_cases hs : rpt.shifts.getD i 0 ≠ 0
      · rw [if_pos hs]
        exact zxApplyUsb_lt_128 sj i m hm r hr
      · rw [if_neg hs]
        exact hm r hr
    · intro r _
      show (0 : Nat) < 128
      decide

/-- Witness for C7 (amended): row 0 of the matrix for a report pressing
only F12 is below 128. -/
theorem c7_row_bits_amended_witness :
    buildZxMatrix false ⟨[0, 0, 0, 0, 0, 0, 0, 0], [0x45, 0, 0, 0, 0, 0]⟩ 0 < 128 :=
  c7_row_bits_amended false ⟨[0, 0, 0, 0, 0, 0, 0, 0], [0x45, 0, 0, 0, 0, 0]⟩ 0
    (by decide)

/-- Counterexample to C7 as stated: pressing F12 (usage 0x45, mapped to
ZX_RESET = row 0, data bit 5) builds a matrix whose row 0 has a bit set
among bits 5-7, so the bytes are not bitmaps over bits 0-4 only. -/
theorem c7_row_bits_counterexample :
    buildZxMatrix false ⟨[0, 0, 0, 0, 0, 0, 0, 0], [0x45, 0, 0, 0, 0, 0]⟩ 0
      &&& 0xE0 ≠ 0 := by
  decide

/-! ## The precompute loop: characterisation of the written entries -/

lemma foldl_set_length (v : Nat → Nat) :
    ∀ (n : Nat) (buf : List Nat),
      ((List.range n).foldl (fun b i => b.set i (v i)) buf).length = buf.length := by
  intro n
  induction n with
  | zero => intro buf; rfl
  | succ n ih =>
    intro buf
    rw [List.range_succ, List.foldl_append]
    simp only [List.foldl_cons, List.foldl_nil, List.length_set]
    exact ih buf

lemma foldl_set_getD (v : Nat → Nat) :
    ∀ (n : Nat) (buf : List Nat), n ≤ buf.length → ∀ j,
      ((List.range n).foldl (fun b i => b.set i (v i)) buf).getD j 0 =
        if j < n then v j else buf.getD j 0 := by
  intro n
  induction n with
  | zero =>
    intro buf _ j
    rw [if_neg (Nat.not_lt_zero j)]
    rfl
  | succ n ih =>
    intro buf h j
    rw [List.range_succ, List.foldl_append]
    simp only [List.foldl_cons, List.foldl_nil]
    have hlen : ((List.range n).foldl (fun b i => b.set i (v i)) buf).length =
        buf.length := foldl_set_length v n buf
    by_cases hj : j = n
    · subst hj
      rw [if_pos (Nat.lt_succ_self j)]
      have hjlen : j < ((List.range j).foldl (fun b i => b.set i (v i)) buf).length := by
        rw [hlen]
        omega
      rw [List.getD_eq_getElem?_getD, List.getElem?_set_self hjlen]
      rfl
    · rw [List.getD_eq_getElem?_getD, List.getElem?_set_ne (fun hh => hj hh.symm),
        ← List.getD_eq_getElem?_getD, ih buf (Nat.le_of_succ_le h) j]
      by_cases hlt : j < n
      · rw [if_pos hlt, if_pos (Nat.lt_succ_of_lt hlt)]
      · rw [if_neg hlt, if_neg (by omega)]

lemma precomputeInto_getD (m : ZxMatrix) (buf : List Nat)
    (hbuf : buf.length = 256) (j : Nat) :
    (precomputeInto m buf).getD j 0 =
      if j < 255 then respEntry m j else buf.getD j 0 :=
  foldl_set_getD (respEntry m) 255 buf (by omega) j

lemma precompLoop_aux_lt (m : ZxMatrix) :
    ∀ (l : List Nat) (p z : Nat), p < 256 →
      ((List.foldl (fun pz j =>
          ((if pz.2 &&& 1 = 0 then pz.1 ||| m j % 2 ^ 8 else pz.1 : Nat),
            (pz.2 >>> 1 : Nat)))
        (p, z) l).1) < 256 := by
  intro l
  induction l with
  | nil => exact fun p z hp => hp
  | cons j l ih =>
    intro p z hp
    simp only [List.foldl_cons]
    apply ih
    by_cases hc : z &&& 1 = 0
    · rw [if_pos hc]
      have ha : p < 2 ^ 8 := hp
      have hb : m j % 2 ^ 8 < 2 ^ 8 := Nat.mod_lt _ (by decide)
      exact Nat.or_lt_two_pow ha hb
    · rw [if_neg hc]
      exact hp

lemma precompLoop_lt (m : ZxMatrix) (i : Nat) : precompLoop m i < 256 :=
  precompLoop_aux_lt m (List.range 8) 0 i (by decide)

lemma respEntry_eq_sub (m : ZxMatrix) (i : Nat) :
    respEntry m i = 255 - precompLoop m i := by
  have h := precompLoop_lt m i
  show (2 ^ 32 - 1 - precompLoop m i) % 2 ^ 8 = 255 - precompLoop m i
  have h32 : (2 : Nat) ^ 32 = 4294967296 := by norm_num
  have h8 : (2 : Nat) ^ 8 = 256 := by norm_num
  rw [h32, h8]
  omega

lemma bit_clear_iff (i k : Nat) :
    ((i >>> k) &&& 1 = 0) ↔ ¬(i.testBit k = true) := by
  rw [Nat.and_one_is_mod, Nat.shiftRight_eq_div_pow, Nat.testBit_to_div_mod]
  simp only [decide_eq_true_eq]
  omega

lemma precompLoop_range_aux (m : ZxMatrix) (i : Nat) :
    ∀ (n k p : Nat),
      ((List.range' k n).foldl (fun pz j =>
          ((if pz.2 &&& 1 = 0 then pz.1 ||| m j % 2 ^ 8 else pz.1 : Nat),
            (pz.2 >>> 1 : Nat)))
        (p, i >>> k)).1 =
      (List.range' k n).foldl
        (fun q j => if i.testBit j then q else q ||| m j % 2 ^ 8) p := by
  intro n
  induction n with
  | zero => intro k p; rfl
  | succ n ih =>
    intro k p
    rw [List.range'_succ]
    simp only [List.foldl_cons]
    have hz : (i >>> k) >>> 1 = i >>> (k + 1) := by
      rw [Nat.shiftRight_succ i k, Nat.shiftRight_succ (i >>> k) 0,
        Nat.shiftRight_zero]
    by_cases hb : i.testBit k = true
    · have hcond : ¬((i >>> k) &&& 1 = 0) := fun hc => (bit_clear_iff i k).mp hc hb
      rw [if_neg hcond, if_pos hb, hz]
      exact ih (k + 1) p
    · have hcond : (i >>> k) &&& 1 = 0 := by
        rw [bit_clear_iff i k]
        exact hb
      rw [if_pos hcond, if_neg hb, hz]
      exact ih (k + 1) (p ||| m k % 2 ^ 8)

lemma precompLoop_eq_testBit_fold (m : ZxMatrix) (i : Nat) :
    precompLoop m i =
      (List.range 8).foldl
        (fun q j => if i.testBit j then q else q ||| m j % 2 ^ 8) 0 := by
  have h := precompLoop_range_aux m i 8 0 0
  rw [Nat.shiftRight_zero] at h
  unfold precompLoop
  rw [List.range_eq_range']
  exact h

lemma foldl_or_mod_congr (m : ZxMatrix) (i : Nat) :
    ∀ (l : List Nat) (p : Nat), (∀ j ∈ l, m j % 2 ^ 8 = m j) →
      List.foldl (fun q j => if i.testBit j then q else q ||| m j % 2 ^ 8) p l =
        List.foldl (fun q j => if i.testBit j then q else q ||| m j) p l := by
  intro l
  induction l with
  | nil => intro p _; rfl
  | cons j l ih =>
    intro p h
    simp only [List.foldl_cons]
    rw [h j (List.mem_cons_self j l)]
    exact ih _ (fun x hx => h x (List.mem_cons_of_mem j hx))

lemma respEntry_eq_orRowsClear (m : ZxMatrix) (i : Nat)
    (hm : ∀ r, r < 8 → m r < 256) :
    respEntry m i = 255 - orRowsClear m i := by
  rw [respEntry_eq_sub, precompLoop_eq_testBit_fold]
  unfold orRowsClear
  rw [foldl_or_mod_congr m i (List.range 8) 0
    (fun j hj => Nat.mod_eq_of_lt (hm j (List.mem_range.mp hj)))]

lemma orRowsClear_zero (m : ZxMatrix) : orRowsClear m 0 = orAllRows m := by
  unfold orRowsClear orAllRows
  simp [Nat.zero_testBit]

/-! ## Claim C1: the response-table formula -/

/-- C1 (corrected): for every matrix with byte-sized rows, every buffer
of size 0x100 and every index i < 255, the entry the precompute loop
writes at i is the 8-bit complement of the OR of the rows whose bit of
i is CLEAR -- the row-select lines are active-low, the opposite
polarity of the one the claim states.  In particular entry 0, the
all-rows-selected index, is the complement of the OR of all 8 rows,
which is 0xFF exactly when the matrix is all zero. -/
theorem c1_response_table_entries (m : ZxMatrix) (buf : List Nat)
    (hbuf : buf.length = 256) (hm : ∀ r, r < 8 → m r < 256) :
    (∀ i, i < 255 →
      (precomputeInto m buf).getD i 0 = 255 - orRowsClear m i)
    ∧ (precomputeInto m buf).getD 0 0 = 255 - orAllRows m := by
  have h1 : ∀ i, i < 255 →
      (precomputeInto m buf).getD i 0 = 255 - orRowsClear m i := by
    intro i hi
    rw [precomputeInto_getD m buf hbuf i, if_pos hi,
      respEntry_eq_orRowsClear m i hm]
  refine ⟨h1, ?_⟩
  rw [h1 0 (by omega), orRowsClear_zero]

/-- Witness for C1 (amended): the all-zero matrix into a fresh buffer. -/
theorem c1_response_table_entries_witness :
    (∀ i, i < 255 →
      (precomputeInto zeroMatrix (List.replicate 256 255)).getD i 0 =
        255 - orRowsClear zeroMatrix i)
    ∧ (precomputeInto zeroMatrix (List.replicate 256 255)).getD 0 0 =
        255 - orAllRows zeroMatrix :=
  c1_response_table_entries zeroMatrix (List.replicate 256 255)
    (by simp) (fun r _ => by norm_num [zeroMatrix])

/-- Counterexample to C1 as stated: with only the Caps-shift key
pressed (row 0 equals 1) the claim demands entry 0 to be 0xFF (no rows
selected under its set-bit reading), but the code computes 0xFE there,
because index 0 selects all rows (active-low). -/
theorem c1_response_table_counterexample :
    (precomputeInto (fun r => if r = 0 then 1 else 0)
      (List.replicate 256 255)).getD 0 0 ≠ 255 := by
  rw [precomputeInto_getD (fun r => if r = 0 then 1 else 0)
    (List.replicate 256 255) (by simp) 0, if_pos (by omega)]
  decide

/-! ## Claim C9: the precompute loop writes exactly indices 0-254 -/

/-- C9: the precompute loop writes the entries at indices 0 through 254
of the buffer it is given; entry 255 is never written and keeps its
previous value, and the buffer's size does not change. -/
theorem c9_precompute_index_range (m : ZxMatrix) (buf : List Nat)
    (hbuf : buf.length = 256) :
    (∀ i, i < 255 → (precomputeInto m buf).getD i 0 = respEntry m i)
    ∧ (precomputeInto m buf).getD 255 0 = buf.getD 255 0
    ∧ (precomputeInto m buf).length = buf.length := by
  refine ⟨?_, ?_, foldl_set_length (respEntry m) 255 buf⟩
  · intro i hi
    rw [precomputeInto_getD m buf hbuf i, if_pos hi]
  · rw [precomputeInto_getD m buf hbuf 255, if_neg (by omega)]

/-- Witness for C9: a buffer holding 7 everywhere keeps its 7 at index
255 while index 0 is rewritten. -/
theorem c9_precompute_index_range_witness :
    (∀ i, i < 255 →
      (precomputeInto zeroMatrix (List.replicate 256 7)).getD i 0 =
        respEntry zeroMatrix i)
    ∧ (precomputeInto zeroMatrix (List.replicate 256 7)).getD 255 0 =
        (List.replicate 256 7).getD 255 0
    ∧ (precomputeInto zeroMatrix (List.replicate 256 7)).length =
        (List.replicate 256 7).length :=
  c9_precompute_index_range zeroMatrix (List.replicate 256 7) (by simp)

/-! ## Claim C8: the placeholder entry for usage code 0x64 -/

/-- C8 (corrected): processing the one placeholder table entry (usage
code 0x64, stored as the literal 0 at usb_to_zx index 0x68) emits no
diagnostic, but it is NOT free of matrix effect: the value 0 decodes as
the Caps-shift key, so processing the code performs exactly
ZxMatrixSet of ZX_CAPS (row 0, bit 0). -/
theorem c8_placeholder_sets_caps (sj : Bool) (m : ZxMatrix) :
    (ZxMatrixSetUsb sj m (STD_KEYS_OFFSET + 0x64)).snd = false
    ∧ (ZxMatrixSetUsb sj m (STD_KEYS_OFFSET + 0x64)).fst =
        ZxMatrixSet m ZX_CAPS := by
  have h1 : ¬(sj = true ∧
      usbJoyIndex (STD_KEYS_OFFSET + 0x64) < usb_to_zx_joystick.length) := by
    rintro ⟨-, hlt⟩
    exact absurd hlt (by decide)
  have h2 : STD_KEYS_OFFSET + 0x64 < usb_to_zx.length ∧
      usb_to_zx.getD (STD_KEYS_OFFSET + 0x64) 0 ≠ NONE := by decide
  constructor
  · unfold ZxMatrixSetUsb
    rw [if_neg h1, if_pos h2]
  · have h := zxApplyUsb_table sj (STD_KEYS_OFFSET + 0x64) m h1 h2
    unfold zxApplyUsb at h
    rw [h, if_neg (by decide), if_neg (by decide)]
    exact congrArg (ZxMatrixSet m) (by decide)

/-- Counterexample to C8 as stated: processing usage code 0x64 does
change the matrix -- row 0 of the result differs from row 0 of the
empty matrix (the Caps-shift bit is now set). -/
theorem c8_placeholder_counterexample :
    zxApplyUsb false zeroMatrix (STD_KEYS_OFFSET + 0x64) 0 ≠ zeroMatrix 0 := by
  decide
